import Mathlib

/-
Verification of the xnotid notification daemon core (protocol decoder +
notification store), shallowly embedded from the Rust sources
src/notification.rs, src/store.rs and src/dbus_server.rs.

Modelling conventions:
* Rust u32 ids are modelled as Nat.  The store increments next_id by one per
  freshly added notification; a debug build of the source aborts on u32
  overflow rather than wrapping, so exact Nat arithmetic is the faithful
  model for every run that does not abort.
* Rust HashMap is modelled as a function into Option (lookup / insert /
  remove become function application / pointwise update), which matches the
  HashMap semantics used by the source (the source never iterates the maps
  in a way any modelled observation depends on).
* The zbus OwnedValue variant payload is modelled by the inductive DBusValue
  covering exactly the variant shapes the source inspects (Str, U8, Bool,
  I32, U32, the raw-image tuple) plus a catch-all for every other variant.
* The JSONL audit log is modelled as the list of (event name, notification
  id) pairs appended by log_event; the remaining LogEntry payload (uuid,
  wall-clock timestamps, stringified hints) is nondeterministic I/O detail
  that no claim observes.
* Notification fields uuid, created_at and the stringified hints snapshot
  are produced from a random generator / the wall clock / Debug formatting
  in the source; they are omitted from the model (no claim observes them).
-/

namespace Xnotid

/-- Urgency levels per the freedesktop notification spec (notification.rs). -/
inductive Urgency where
  | Low
  | Normal
  | Critical
deriving DecidableEq, Repr

/-- Models the From of u8 for Urgency: 0 is Low, 2 is Critical,
everything else Normal (notification.rs, impl From). -/
def Urgency.ofU8 (v : Nat) : Urgency :=
  if v = 0 then Urgency.Low
  else if v = 2 then Urgency.Critical
  else Urgency.Normal

/-- Close reasons per the protocol (notification.rs). -/
inductive CloseReason where
  | Expired
  | Dismissed
  | Closed
  | Undefined
deriving DecidableEq, Repr

/-- An action button attached to a notification (notification.rs). -/
structure Action where
  key : String
  label : String
deriving DecidableEq, Repr

/-- A choice inside a multiple-choice card (notification.rs, CardChoice). -/
structure CardChoice where
  id : String
  label : String
deriving DecidableEq, Repr

/-- Structured card payload parsed from the body (notification.rs,
NotificationCard; serde internally tagged on the field type with
kebab-case variant names). -/
inductive NotificationCard where
  | MultipleChoice (question : String) (choices : List CardChoice) (allow_other : Bool)
  | Permission (question : String) (allow_label : String)
deriving DecidableEq, Repr

/-- Image data from hints: raw pixels, a filesystem path, a themed icon
name, or nothing (notification.rs, ImageData). -/
inductive ImageData where
  | Raw (width height rowstride : Int) (has_alpha : Bool)
        (bits_per_sample channels : Int) (data : List Nat)
  | Path (p : String)
  | Name (n : String)
  | None
deriving DecidableEq, Repr

/-- The zbus variant value attached to a hint key.  The source inspects
exactly these shapes: Str, U8, Bool, I32, U32 and the raw image tuple
(iiibiiay); every other variant kind is collapsed into other, which every
typed getter of the source rejects. -/
inductive DBusValue where
  | str (s : String)
  | u8 (n : Nat)
  | bool (b : Bool)
  | i32 (n : Int)
  | u32 (n : Nat)
  | image (width height rowstride : Int) (has_alpha : Bool)
          (bits_per_sample channels : Int) (data : List Nat)
  | other
deriving DecidableEq, Repr

/-- True exactly on the U8 variant. -/
def DBusValue.isU8 : DBusValue → Bool
  | .u8 _ => true
  | _ => false

/-- True exactly on the Str variant. -/
def DBusValue.isStr : DBusValue → Bool
  | .str _ => true
  | _ => false

/-- True exactly on the Bool variant. -/
def DBusValue.isBool : DBusValue → Bool
  | .bool _ => true
  | _ => false

/-- True exactly on the I32 and U32 variants (both accepted by the
progress-value getter of the source). -/
def DBusValue.isI32orU32 : DBusValue → Bool
  | .i32 _ => true
  | .u32 _ => true
  | _ => false

/-- True exactly on the raw-image tuple variant. -/
def DBusValue.isImage : DBusValue → Bool
  | .image .. => true
  | _ => false

/-! JSON values and a parser, modelling serde_json::from_str as used by
Notification::parse_card_body.  Numbers keep their raw lexeme: no claim
observes numeric values, only whether parsing succeeds. -/

inductive Json where
  | null
  | bool (b : Bool)
  | num (lexeme : String)
  | str (s : String)
  | arr (elems : List Json)
  | obj (fields : List (String × Json))

/-- The double-quote character. -/
def quoteC : Char := Char.ofNat 34

/-- The backslash character. -/
def backslashC : Char := Char.ofNat 92

/-- The opening-brace character. -/
def lbraceC : Char := Char.ofNat 123

/-- The closing-brace character. -/
def rbraceC : Char := Char.ofNat 125

/-- JSON insignificant whitespace. -/
def isWsChar (c : Char) : Bool :=
  c = ' ' || c = Char.ofNat 9 || c = Char.ofNat 10 || c = Char.ofNat 13

/-- Drop leading JSON whitespace. -/
def skipWs : List Char → List Char
  | [] => []
  | c :: rest => if isWsChar c then skipWs rest else c :: rest

/-- Hexadecimal digit value. -/
def hexVal (c : Char) : Option Nat :=
  if c.toNat ≥ 48 ∧ c.toNat ≤ 57 then some (c.toNat - 48)
  else if c.toNat ≥ 97 ∧ c.toNat ≤ 102 then some (c.toNat - 87)
  else if c.toNat ≥ 65 ∧ c.toNat ≤ 70 then some (c.toNat - 55)
  else none

/-- Four hexadecimal digits of a unicode escape. -/
def parseHex4 : List Char → Option (Nat × List Char)
  | a :: b :: c :: d :: rest =>
    match hexVal a, hexVal b, hexVal c, hexVal d with
    | some x, some y, some z, some w => some (x * 4096 + y * 256 + z * 16 + w, rest)
    | _, _, _, _ => none
  | _ => none

/-- Body of a JSON string after the opening quote, decoding escapes the way
serde_json does (including surrogate pairs; a lone surrogate or an
unescaped control character is an error). -/
def parseStringBody (fuel : Nat) (acc : List Char) (cs : List Char) :
    Option (String × List Char) :=
  match fuel with
  | 0 => none
  | fuel + 1 =>
    match cs with
    | [] => none
    | c :: rest =>
      if c = quoteC then some (String.mk acc.reverse, rest)
      else if c = backslashC then
        match rest with
        | [] => none
        | e :: rest2 =>
          if e = quoteC then parseStringBody fuel (quoteC :: acc) rest2
          else if e = backslashC then parseStringBody fuel (backslashC :: acc) rest2
          else if e = '/' then parseStringBody fuel ('/' :: acc) rest2
          else if e = 'b' then parseStringBody fuel (Char.ofNat 8 :: acc) rest2
          else if e = 'f' then parseStringBody fuel (Char.ofNat 12 :: acc) rest2
          else if e = 'n' then parseStringBody fuel (Char.ofNat 10 :: acc) rest2
          else if e = 'r' then parseStringBody fuel (Char.ofNat 13 :: acc) rest2
          else if e = 't' then parseStringBody fuel (Char.ofNat 9 :: acc) rest2
          else if e = 'u' then
            match parseHex4 rest2 with
            | none => none
            | some (n, rest3) =>
              if 55296 ≤ n ∧ n ≤ 56319 then
                match rest3 with
                | u1 :: u2 :: rest4 =>
                  if u1 = backslashC ∧ u2 = 'u' then
                    match parseHex4 rest4 with
                    | some (m, rest5) =>
                      if 56320 ≤ m ∧ m ≤ 57343 then
                        parseStringBody fuel
                          (Char.ofNat (65536 + (n - 55296) * 1024 + (m - 56320)) :: acc) rest5
                      else none
                    | none => none
                  else none
                | _ => none
              else if 56320 ≤ n ∧ n ≤ 57343 then none
              else parseStringBody fuel (Char.ofNat n :: acc) rest3
          else none
      else if c.toNat < 32 then none
      else parseStringBody fuel (c :: acc) rest

/-- Longest leading run of decimal digits. -/
def digitsSpan : List Char → List Char × List Char
  | [] => ([], [])
  | c :: rest =>
    if c.isDigit then
      let (ds, r) := digitsSpan rest
      (c :: ds, r)
    else ([], c :: rest)

/-- A JSON number lexeme per the JSON grammar: optional minus, integer part
with no leading zero, optional fraction, optional exponent. -/
def parseNumberLex (cs : List Char) : Option (String × List Char) :=
  let (neg, cs1) :=
    match cs with
    | c :: r => if c = '-' then ([c], r) else (([] : List Char), cs)
    | [] => ([], [])
  match cs1 with
  | [] => none
  | c :: r =>
    if c = '0' ∨ ¬ c.isDigit then
      if c = '0' then
        let (intPart, cs2) := ([c], r)
        numTail neg intPart cs2
      else none
    else
      let (ds, cs2) := digitsSpan r
      numTail neg (c :: ds) cs2
where
  /-- Fraction and exponent suffix. -/
  numTail (neg intPart : List Char) (cs : List Char) : Option (String × List Char) :=
    let (frac, cs3) :=
      match cs with
      | d :: r2 =>
        if d = '.' then
          match digitsSpan r2 with
          | ([], _) => ([], none)
          | (ds2, r3) => (d :: ds2, some r3)
        else ([], some cs)
      | [] => ([], some cs)
    match cs3 with
    | none => none
    | some cs4 =>
      let (expPart, cs5) :=
        match cs4 with
        | e :: r4 =>
          if e = 'e' ∨ e = 'E' then
            let (sign, r5) :=
              match r4 with
              | s :: r6 => if s = '+' ∨ s = '-' then ([s], r6) else (([] : List Char), r4)
              | [] => ([], r4)
            match digitsSpan r5 with
            | ([], _) => ([], none)
            | (ds3, r7) => (e :: sign ++ ds3, some r7)
          else ([], some cs4)
        | [] => ([], some cs4)
      match cs5 with
      | none => none
      | some cs6 => some (String.mk (neg ++ intPart ++ frac ++ expPart), cs6)

mutual

/-- One JSON value, with surrounding leading whitespace allowed. -/
def parseValue : Nat → List Char → Option (Json × List Char)
  | 0, _ => none
  | fuel + 1, cs =>
    match skipWs cs with
    | [] => none
    | c :: rest =>
      if c = 'n' then
        match rest with
        | 'u' :: 'l' :: 'l' :: r => some (Json.null, r)
        | _ => none
      else if c = 't' then
        match rest with
        | 'r' :: 'u' :: 'e' :: r => some (Json.bool true, r)
        | _ => none
      else if c = 'f' then
        match rest with
        | 'a' :: 'l' :: 's' :: 'e' :: r => some (Json.bool false, r)
        | _ => none
      else if c = quoteC then
        match parseStringBody (rest.length + 1) [] rest with
        | some (s, r) => some (Json.str s, r)
        | none => none
      else if c = lbraceC then
        match skipWs rest with
        | [] => none
        | d :: r2 => if d = rbraceC then some (Json.obj [], r2) else parseObjRest fuel [] (d :: r2)
      else if c = '[' then
        match skipWs rest with
        | [] => none
        | d :: r2 => if d = ']' then some (Json.arr [], r2) else parseArrRest fuel [] (d :: r2)
      else if c = '-' ∨ c.isDigit then
        match parseNumberLex (c :: rest) with
        | some (s, r) => some (Json.num s, r)
        | none => none
      else none

/-- Members of a JSON object after the opening brace, when at least one
member is present. -/
def parseObjRest : Nat → List (String × Json) → List Char → Option (Json × List Char)
  | 0, _, _ => none
  | fuel + 1, acc, cs =>
    match skipWs cs with
    | [] => none
    | c :: rest =>
      if c = quoteC then
        match parseStringBody (rest.length + 1) [] rest with
        | none => none
        | some (key, cs2) =>
          match skipWs cs2 with
          | [] => none
          | d :: cs4 =>
            if d = ':' then
              match parseValue fuel cs4 with
              | none => none
              | some (v, cs5) =>
                match skipWs cs5 with
                | [] => none
                | e :: cs7 =>
                  if e = ',' then parseObjRest fuel ((key, v) :: acc) cs7
                  else if e = rbraceC then some (Json.obj ((key, v) :: acc).reverse, cs7)
                  else none
            else none
      else none

/-- Elements of a JSON array after the opening bracket, when at least one
element is present. -/
def parseArrRest : Nat → List Json → List Char → Option (Json × List Char)
  | 0, _, _ => none
  | fuel + 1, acc, cs =>
    match parseValue fuel cs with
    | none => none
    | some (v, cs2) =>
      match skipWs cs2 with
      | [] => none
      | e :: cs4 =>
        if e = ',' then parseArrRest fuel (v :: acc) cs4
        else if e = ']' then some (Json.arr (v :: acc).reverse, cs4)
        else none

end

/-- Parse a whole string as one JSON value, requiring only whitespace after
it, the way serde_json::from_str does. -/
def jsonParse (s : String) : Option Json :=
  let cs := s.toList
  match parseValue (cs.length * 4 + 16) cs with
  | some (v, rest) => if skipWs rest = [] then some v else none
  | none => none

/-- First binding of a key in a parsed JSON object. -/
def jget (k : String) (fields : List (String × Json)) : Option Json :=
  fields.lookup k

/-- A JSON string value, or nothing. -/
def asString : Json → Option String
  | .str s => some s
  | _ => none

/-- Serde deserialization of one CardChoice: an object with string fields
id and label (unknown fields ignored, as serde defaults to). -/
def deCardChoice : Json → Option CardChoice
  | .obj fields =>
    match (jget "id" fields).bind asString, (jget "label" fields).bind asString with
    | some i, some l => some { id := i, label := l }
    | _, _ => none
  | _ => none

/-- Serde deserialization of the internally tagged NotificationCard enum
from the fields of the envelope object: dispatch on the string field type
(kebab-case variant names), require question, default allow_other to false
and allow_label to the string Allow, fail on a wrongly typed field. -/
def deNotificationCard (fields : List (String × Json)) : Option NotificationCard :=
  match jget "type" fields with
  | some (.str t) =>
    if t = "multiple-choice" then
      match (jget "question" fields).bind asString with
      | none => none
      | some q =>
        match jget "choices" fields with
        | some (.arr xs) =>
          match xs.mapM deCardChoice with
          | none => none
          | some cs =>
            match jget "allow_other" fields with
            | none => some (NotificationCard.MultipleChoice q cs false)
            | some (.bool b) => some (NotificationCard.MultipleChoice q cs b)
            | some _ => none
        | _ => none
    else if t = "permission" then
      match (jget "question" fields).bind asString with
      | none => none
      | some q =>
        match jget "allow_label" fields with
        | none => some (NotificationCard.Permission q "Allow")
        | some (.str s) => some (NotificationCard.Permission q s)
        | some _ => none
    else none
  | _ => none

/-- Serde deserialization of CardEnvelope: an object with a string field
xnotid_card (the marker) and, flattened beside it, a NotificationCard. -/
def deCardEnvelope : Json → Option (String × NotificationCard)
  | .obj fields =>
    match (jget "xnotid_card" fields).bind asString with
    | none => none
    | some marker =>
      match deNotificationCard fields with
      | none => none
      | some card => some (marker, card)
  | _ => none

/-- Notification::parse_card_body: speculatively deserialize the body as a
CardEnvelope; accept only marker v1, otherwise no card. -/
def parse_card_body (body : String) : Option NotificationCard :=
  match (jsonParse body).bind deCardEnvelope with
  | none => none
  | some (marker, card) => if marker = "v1" then some card else none

/-! Hint getters (notification.rs).  Each inspects the variant value under
a key and yields nothing on absence or on any other variant shape. -/

/-- Notification::get_hint_string. -/
def get_hint_string (hints : List (String × DBusValue)) (key : String) : Option String :=
  (hints.lookup key).bind fun v =>
    match v with
    | .str s => some s
    | _ => none

/-- Notification::get_hint_u8. -/
def get_hint_u8 (hints : List (String × DBusValue)) (key : String) : Option Nat :=
  (hints.lookup key).bind fun v =>
    match v with
    | .u8 n => some n
    | _ => none

/-- Notification::get_hint_bool. -/
def get_hint_bool (hints : List (String × DBusValue)) (key : String) : Option Bool :=
  (hints.lookup key).bind fun v =>
    match v with
    | .bool b => some b
    | _ => none

/-- Notification::get_hint_i32: accepts I32 directly and U32 through the
Rust as-cast (two's-complement reinterpretation). -/
def get_hint_i32 (hints : List (String × DBusValue)) (key : String) : Option Int :=
  (hints.lookup key).bind fun v =>
    match v with
    | .i32 n => some n
    | .u32 n => some (if n < 2 ^ 31 then (n : Int) else (n : Int) - 2 ^ 32)
    | _ => none

/-- Notification::parse_raw_image: the value under the key, provided it is
the raw-image tuple shape. -/
def parse_raw_image (hints : List (String × DBusValue)) (key : String) : Option ImageData :=
  (hints.lookup key).bind fun v =>
    match v with
    | .image w h r a b c d => some (ImageData.Raw w h r a b c d)
    | _ => none

/-- Rust str::starts_with on character lists. -/
def isPrefixList : List Char → List Char → Bool
  | [], _ => true
  | _ :: _, [] => false
  | a :: as, b :: bs => a == b && isPrefixList as bs

/-- Rust str::starts_with on strings. -/
def strStartsWith (s pre : String) : Bool := isPrefixList pre.toList s.toList

/-- Classification of a path-like string: a filesystem path when it starts
with a slash or a file URI scheme, a themed icon name otherwise. -/
def classifyPathName (p : String) : ImageData :=
  if strStartsWith p "/" || strStartsWith p "file://" then ImageData.Path p
  else ImageData.Name p

/-- Notification::parse_image: raw pixel hints first (three key spellings),
then non-empty path hints (two spellings, an empty string falls through),
then the app_icon parameter, then nothing. -/
def parse_image (hints : List (String × DBusValue)) (app_icon : String) : ImageData :=
  match parse_raw_image hints "image-data" with
  | some raw => raw
  | none =>
    match parse_raw_image hints "image_data" with
    | some raw => raw
    | none =>
      match parse_raw_image hints "icon_data" with
      | some raw => raw
      | none =>
        match get_hint_string hints "image-path" with
        | some path =>
          if path ≠ "" then classifyPathName path
          else
            match get_hint_string hints "image_path" with
            | some path2 =>
              if path2 ≠ "" then classifyPathName path2
              else if app_icon ≠ "" then classifyPathName app_icon
              else ImageData.None
            | none =>
              if app_icon ≠ "" then classifyPathName app_icon
              else ImageData.None
        | none =>
          match get_hint_string hints "image_path" with
          | some path2 =>
            if path2 ≠ "" then classifyPathName path2
            else if app_icon ≠ "" then classifyPathName app_icon
            else ImageData.None
          | none =>
            if app_icon ≠ "" then classifyPathName app_icon
            else ImageData.None

/-- Action parsing: the flat list is consumed two elements at a time; a
trailing unpaired element is dropped (chunks of two, keep full pairs). -/
def pairActions : List String → List Action
  | k :: l :: rest => { key := k, label := l } :: pairActions rest
  | _ => []

/-- Core notification data structure (notification.rs).  Fields uuid,
created_at and the stringified leftover-hints snapshot are omitted: they
come from a random generator, the wall clock and Debug formatting, and no
modelled observation reads them. -/
structure Notification where
  id : Nat
  app_name : String
  summary : String
  body : String
  app_icon : String
  actions : List Action
  urgency : Urgency
  timeout : Int
  group : Option String
  acknowledge_to_dismiss : Bool
  image : ImageData
  desktop_entry : Option String
  transient : Bool
  progress : Option Int
  css_class : Option String
  card : Option NotificationCard
deriving DecidableEq, Repr

/-- Notification::new: decode every field from the call parameters and the
hint map, fail-soft throughout. -/
def Notification.new (id : Nat) (app_name app_icon summary body : String)
    (actions_raw : List String) (hints : List (String × DBusValue))
    (expire_timeout : Int) : Notification :=
  { id := id
    app_name := app_name
    summary := summary
    body := body
    app_icon := app_icon
    actions := pairActions actions_raw
    urgency := ((get_hint_u8 hints "urgency").map Urgency.ofU8).getD Urgency.Normal
    timeout := expire_timeout
    group := get_hint_string hints "x-group"
    acknowledge_to_dismiss :=
      ((get_hint_bool hints "x-acknowledge").getD false) || (parse_card_body body).isSome
    image := parse_image hints app_icon
    desktop_entry := get_hint_string hints "desktop-entry"
    transient := (get_hint_bool hints "transient").getD false
    progress := get_hint_i32 hints "value"
    css_class := get_hint_string hints "x-css-class"
    card := parse_card_body body }

/-- The slice of Config the store core reads (config.rs; the remaining
fields are presentation-layer geometry and timing the core never touches). -/
structure Config where
  log_enabled : Bool
  log_path : String
deriving DecidableEq, Repr

/-- Shared application state (store.rs).  The audit log file is modelled as
the list of appended (event, notification id) pairs. -/
structure Store where
  config : Config
  notifications : Nat → Option Notification
  order : List Nat
  groups : String → Option (List Nat)
  next_id : Nat
  dnd : Bool
  replaced_ids : List Nat
  log : List (String × Nat)

/-- Store::new. -/
def Store.new (config : Config) : Store :=
  { config := config
    notifications := fun _ => none
    order := []
    groups := fun _ => none
    next_id := 1
    dnd := false
    replaced_ids := []
    log := [] }

/-- Store::log_event: append one line to the audit log when logging is
enabled; a disabled log appends nothing.  File-write failure is swallowed
in the source and is not distinguishable in the model. -/
def Store.log_event (s : Store) (noti : Notification) (event : String) : Store :=
  if s.config.log_enabled then { s with log := s.log ++ [(event, noti.id)] } else s

/-- Store::add: replace in place when replaces_id is positive and active
(recording it in replaced_ids, deduplicated), otherwise assign next_id,
push the id onto the front of order and into its group index; log a
received event either way, and return the assigned id with the new store. -/
def Store.add (s : Store) (noti : Notification) (replaces_id : Nat) : Nat × Store :=
  if 0 < replaces_id ∧ (s.notifications replaces_id).isSome then
    (replaces_id,
      Store.log_event
        { s with
          notifications := fun k =>
            if k = replaces_id then some { noti with id := replaces_id }
            else s.notifications k
          replaced_ids :=
            if replaces_id ∈ s.replaced_ids then s.replaced_ids
            else s.replaced_ids ++ [replaces_id] }
        { noti with id := replaces_id } "received")
  else
    (s.next_id,
      Store.log_event
        { s with
          notifications := fun k =>
            if k = s.next_id then some { noti with id := s.next_id }
            else s.notifications k
          order := s.next_id :: s.order
          groups :=
            match noti.group with
            | some g => fun k =>
                if k = g then some (((s.groups g).getD []) ++ [s.next_id])
                else s.groups k
            | none => s.groups
          next_id := s.next_id + 1 }
        { noti with id := s.next_id } "received")

/-- The audit event name of a close reason (store.rs, Store::close). -/
def reasonEvent : CloseReason → String
  | .Expired => "expired"
  | .Dismissed => "dismissed"
  | .Closed => "closed"
  | .Undefined => "undefined"

/-- Removal of a closed id from its group index, removing the group entry
entirely when it becomes empty (store.rs, Store::close). -/
def removeGroupIndex (s : Store) (id : Nat) (g? : Option String) : Store :=
  match g? with
  | some g =>
    match s.groups g with
    | some ids =>
      let ids2 := ids.filter (fun x => x ≠ id)
      { s with groups := fun k =>
          if k = g then (if ids2.isEmpty then none else some ids2) else s.groups k }
    | none => s
  | none => s

/-- Store::close: remove the notification from the map, from order and from
its group index, log an event named after the reason, and return the
removed value; an unknown id is a no-op returning nothing. -/
def Store.close (s : Store) (id : Nat) (reason : CloseReason) :
    Option Notification × Store :=
  match s.notifications id with
  | some noti =>
    let s1 : Store :=
      { s with
        notifications := fun k => if k = id then none else s.notifications k
        order := s.order.filter (fun x => x ≠ id) }
    let s2 := removeGroupIndex s1 id noti.group
    (some noti, s2.log_event noti (reasonEvent reason))
  | none => (none, s)

/-- Store::log_action: log an action event for a still-active notification;
unknown ids are a no-op. -/
def Store.log_action (s : Store) (id : Nat) (action_key : String) : Store :=
  match s.notifications id with
  | some noti => s.log_event noti "action"
  | none => s

/-- Store::visible_popups: order resolved through the map, dropping
non-Critical notifications while Do Not Disturb is on. -/
def Store.visible_popups (s : Store) : List Notification :=
  (s.order.filterMap fun id => s.notifications id).filter
    (fun n => if s.dnd && n.urgency ≠ Urgency.Critical then false else true)

/-- Store::all_notifications: order resolved through the map, dropping
transient notifications. -/
def Store.all_notifications (s : Store) : List Notification :=
  (s.order.filterMap fun id => s.notifications id).filter (fun n => !n.transient)

/-- Store::take_replaced_ids: drain and return the pending replaced ids. -/
def Store.take_replaced_ids (s : Store) : List Nat × Store :=
  (s.replaced_ids, { s with replaced_ids := [] })

/-- Store::clear_all: close every id of order with reason Dismissed. -/
def Store.clear_all (s : Store) : Store :=
  s.order.foldl (fun st id => (st.close id CloseReason.Dismissed).2) s

/-- NotificationServer::notify (dbus_server.rs): decode the payload into a
Notification with id zero, add it to the store, return the assigned id. -/
def notify (s : Store) (app_name : String) (replaces_id : Nat)
    (app_icon summary body : String) (actions : List String)
    (hints : List (String × DBusValue)) (expire_timeout : Int) : Nat × Store :=
  let noti := Notification.new 0 app_name app_icon summary body actions hints expire_timeout
  s.add noti replaces_id

/-- NotificationServer::close_notification (dbus_server.rs): close with
reason Closed. -/
def close_notification (s : Store) (id : Nat) : Store :=
  (s.close id CloseReason.Closed).2

/-! Projection lemmas: log_event touches only the log, removeGroupIndex
touches only the group index. -/

@[simp] lemma log_event_notifications (s : Store) (n : Notification) (e : String) :
    (s.log_event n e).notifications = s.notifications := by
  unfold Store.log_event; split <;> rfl

@[simp] lemma log_event_order (s : Store) (n : Notification) (e : String) :
    (s.log_event n e).order = s.order := by
  unfold Store.log_event; split <;> rfl

@[simp] lemma log_event_groups (s : Store) (n : Notification) (e : String) :
    (s.log_event n e).groups = s.groups := by
  unfold Store.log_event; split <;> rfl

@[simp] lemma log_event_next_id (s : Store) (n : Notification) (e : String) :
    (s.log_event n e).next_id = s.next_id := by
  unfold Store.log_event; split <;> rfl

@[simp] lemma log_event_replaced_ids (s : Store) (n : Notification) (e : String) :
    (s.log_event n e).replaced_ids = s.replaced_ids := by
  unfold Store.log_event; split <;> rfl

@[simp] lemma log_event_config (s : Store) (n : Notification) (e : String) :
    (s.log_event n e).config = s.config := by
  unfold Store.log_event; split <;> rfl

@[simp] lemma log_event_dnd (s : Store) (n : Notification) (e : String) :
    (s.log_event n e).dnd = s.dnd := by
  unfold Store.log_event; split <;> rfl

lemma log_event_log_of_enabled (s : Store) (n : Notification) (e : String)
    (h : s.config.log_enabled = true) :
    (s.log_event n e).log = s.log ++ [(e, n.id)] := by
  unfold Store.log_event; rw [if_pos h]

@[simp] lemma removeGroupIndex_notifications (s : Store) (id : Nat) (g? : Option String) :
    (removeGroupIndex s id g?).notifications = s.notifications := by
  unfold removeGroupIndex
  cases g? with
  | none => rfl
  | some g => cases hg : s.groups g <;> simp [hg]

@[simp] lemma removeGroupIndex_order (s : Store) (id : Nat) (g? : Option String) :
    (removeGroupIndex s id g?).order = s.order := by
  unfold removeGroupIndex
  cases g? with
  | none => rfl
  | some g => cases hg : s.groups g <;> simp [hg]

@[simp] lemma removeGroupIndex_next_id (s : Store) (id : Nat) (g? : Option String) :
    (removeGroupIndex s id g?).next_id = s.next_id := by
  unfold removeGroupIndex
  cases g? with
  | none => rfl
  | some g => cases hg : s.groups g <;> simp [hg]

@[simp] lemma removeGroupIndex_replaced_ids (s : Store) (id : Nat) (g? : Option String) :
    (removeGroupIndex s id g?).replaced_ids = s.replaced_ids := by
  unfold removeGroupIndex
  cases g? with
  | none => rfl
  | some g => cases hg : s.groups g <;> simp [hg]

@[simp] lemma removeGroupIndex_config (s : Store) (id : Nat) (g? : Option String) :
    (removeGroupIndex s id g?).config = s.config := by
  unfold removeGroupIndex
  cases g? with
  | none => rfl
  | some g => cases hg : s.groups g <;> simp [hg]

@[simp] lemma removeGroupIndex_log (s : Store) (id : Nat) (g? : Option String) :
    (removeGroupIndex s id g?).log = s.log := by
  unfold removeGroupIndex
  cases g? with
  | none => rfl
  | some g => cases hg : s.groups g <;> simp [hg]

/-! Branch-projection lemmas for Store.add and Store.close. -/

lemma add_replace_fst (s : Store) (n : Notification) (rid : Nat)
    (h : 0 < rid ∧ (s.notifications rid).isSome) : (s.add n rid).1 = rid := by
  unfold Store.add; rw [if_pos h]

lemma add_replace_notifications (s : Store) (n : Notification) (rid : Nat)
    (h : 0 < rid ∧ (s.notifications rid).isSome) :
    (s.add n rid).2.notifications =
      fun k => if k = rid then some { n with id := rid } else s.notifications k := by
  unfold Store.add; rw [if_pos h]; simp

lemma add_replace_order (s : Store) (n : Notification) (rid : Nat)
    (h : 0 < rid ∧ (s.notifications rid).isSome) : (s.add n rid).2.order = s.order := by
  unfold Store.add; rw [if_pos h]; simp

lemma add_replace_groups (s : Store) (n : Notification) (rid : Nat)
    (h : 0 < rid ∧ (s.notifications rid).isSome) : (s.add n rid).2.groups = s.groups := by
  unfold Store.add; rw [if_pos h]; simp

lemma add_replace_next_id (s : Store) (n : Notification) (rid : Nat)
    (h : 0 < rid ∧ (s.notifications rid).isSome) : (s.add n rid).2.next_id = s.next_id := by
  unfold Store.add; rw [if_pos h]; simp

lemma add_replace_replaced_ids (s : Store) (n : Notification) (rid : Nat)
    (h : 0 < rid ∧ (s.notifications rid).isSome) :
    (s.add n rid).2.replaced_ids =
      if rid ∈ s.replaced_ids then s.replaced_ids else s.replaced_ids ++ [rid] := by
  unfold Store.add; rw [if_pos h]; simp

lemma add_fresh_fst (s : Store) (n : Notification) (rid : Nat)
    (h : ¬ (0 < rid ∧ (s.notifications rid).isSome)) : (s.add n rid).1 = s.next_id := by
  unfold Store.add; rw [if_neg h]

lemma add_fresh_notifications (s : Store) (n : Notification) (rid : Nat)
    (h : ¬ (0 < rid ∧ (s.notifications rid).isSome)) :
    (s.add n rid).2.notifications =
      fun k => if k = s.next_id then some { n with id := s.next_id } else s.notifications k := by
  unfold Store.add; rw [if_neg h]; simp

lemma add_fresh_next_id (s : Store) (n : Notification) (rid : Nat)
    (h : ¬ (0 < rid ∧ (s.notifications rid).isSome)) :
    (s.add n rid).2.next_id = s.next_id + 1 := by
  unfold Store.add; rw [if_neg h]; simp

lemma add_fresh_order (s : Store) (n : Notification) (rid : Nat)
    (h : ¬ (0 < rid ∧ (s.notifications rid).isSome)) :
    (s.add n rid).2.order = s.next_id :: s.order := by
  unfold Store.add; rw [if_neg h]; simp

lemma add_fresh_groups (s : Store) (n : Notification) (rid : Nat)
    (h : ¬ (0 < rid ∧ (s.notifications rid).isSome)) :
    (s.add n rid).2.groups =
      match n.group with
      | some g => fun k =>
          if k = g then some (((s.groups g).getD []) ++ [s.next_id]) else s.groups k
      | none => s.groups := by
  unfold Store.add; rw [if_neg h]; simp

lemma close_none_eq (s : Store) (id : Nat) (r : CloseReason)
    (h : s.notifications id = none) : s.close id r = (none, s) := by
  unfold Store.close; rw [h]

lemma close_some_fst (s : Store) (id : Nat) (r : CloseReason) (noti : Notification)
    (h : s.notifications id = some noti) : (s.close id r).1 = some noti := by
  unfold Store.close; rw [h]

lemma close_some_notifications (s : Store) (id : Nat) (r : CloseReason) (noti : Notification)
    (h : s.notifications id = some noti) :
    (s.close id r).2.notifications =
      fun k => if k = id then none else s.notifications k := by
  unfold Store.close; rw [h]; simp

lemma close_some_order (s : Store) (id : Nat) (r : CloseReason) (noti : Notification)
    (h : s.notifications id = some noti) :
    (s.close id r).2.order = s.order.filter (fun x => x ≠ id) := by
  unfold Store.close; rw [h]; simp

lemma close_some_next_id (s : Store) (id : Nat) (r : CloseReason) (noti : Notification)
    (h : s.notifications id = some noti) :
    (s.close id r).2.next_id = s.next_id := by
  unfold Store.close; rw [h]; simp

lemma close_some_replaced_ids (s : Store) (id : Nat) (r : CloseReason) (noti : Notification)
    (h : s.notifications id = some noti) :
    (s.close id r).2.replaced_ids = s.replaced_ids := by
  unfold Store.close; rw [h]; simp

lemma close_some_groups (s : Store) (id : Nat) (r : CloseReason) (noti : Notification)
    (h : s.notifications id = some noti) :
    (s.close id r).2.groups =
      match noti.group with
      | some g =>
        match s.groups g with
        | some ids =>
          fun k => if k = g then
              (if (ids.filter (fun x => x ≠ id)).isEmpty then none
               else some (ids.filter (fun x => x ≠ id)))
            else s.groups k
        | none => s.groups
      | none => s.groups := by
  unfold Store.close; rw [h]
  simp only [log_event_groups]
  unfold removeGroupIndex
  cases noti.group with
  | none => rfl
  | some g => cases hg : s.groups g <;> simp [hg]

/-! Store invariants and sequences of operations. -/

/-- Identity invariant of the store: next_id is at least one and every
active id is positive and below next_id. -/
def StoreIdInv (s : Store) : Prop :=
  1 ≤ s.next_id ∧ ∀ id, (s.notifications id).isSome → 0 < id ∧ id < s.next_id

/-- Group-index integrity: every id listed under a group key is active with
that group, and every active notification with a group is listed under it. -/
def GroupInv (s : Store) : Prop :=
  (∀ g ids, s.groups g = some ids →
    ∀ id ∈ ids, ∃ n, s.notifications id = some n ∧ n.group = some g) ∧
  (∀ id n g, s.notifications id = some n → n.group = some g →
    ∃ ids, s.groups g = some ids ∧ id ∈ ids)

lemma storeIdInv_new (cfg : Config) : StoreIdInv (Store.new cfg) := by
  constructor
  · simp [Store.new]
  · intro id h
    simp [Store.new] at h

lemma groupInv_new (cfg : Config) : GroupInv (Store.new cfg) := by
  constructor
  · intro g ids h
    simp [Store.new] at h
  · intro id n g h
    simp [Store.new] at h

lemma add_preserves_idinv (s : Store) (n : Notification) (rid : Nat)
    (hinv : StoreIdInv s) : StoreIdInv (s.add n rid).2 := by
  by_cases h : 0 < rid ∧ (s.notifications rid).isSome
  · refine ⟨?_, ?_⟩
    · rw [add_replace_next_id s n rid h]; exact hinv.1
    · intro id hid
      rw [add_replace_next_id s n rid h]
      rw [add_replace_notifications s n rid h] at hid
      by_cases he : id = rid
      · subst he; exact hinv.2 id h.2
      · simp only [if_neg he] at hid
        exact hinv.2 id hid
  · refine ⟨?_, ?_⟩
    · rw [add_fresh_next_id s n rid h]; omega
    · intro id hid
      rw [add_fresh_next_id s n rid h]
      rw [add_fresh_notifications s n rid h] at hid
      by_cases he : id = s.next_id
      · subst he
        have h1 := hinv.1
        exact ⟨by omega, by omega⟩
      · simp only [if_neg he] at hid
        have := hinv.2 id hid
        omega

lemma close_preserves_idinv (s : Store) (id : Nat) (r : CloseReason)
    (hinv : StoreIdInv s) : StoreIdInv (s.close id r).2 := by
  cases h : s.notifications id with
  | none => rw [close_none_eq s id r h]; exact hinv
  | some noti =>
    refine ⟨?_, ?_⟩
    · rw [close_some_next_id s id r noti h]; exact hinv.1
    · intro k hk
      rw [close_some_next_id s id r noti h]
      rw [close_some_notifications s id r noti h] at hk
      by_cases he : k = id
      · subst he; simp at hk
      · simp only [if_neg he] at hk
        exact hinv.2 k hk

/-- Run a list of (notification, replaces_id) add requests, collecting the
returned ids. -/
def runAdds : Store → List (Notification × Nat) → List Nat × Store
  | s, [] => ([], s)
  | s, (n, rid) :: rest =>
    let r := s.add n rid
    let out := runAdds r.2 rest
    (r.1 :: out.1, out.2)

/-- Every request in the sequence has replaces_id zero or not matching an
active id at the time it is processed. -/
def freshSeq : Store → List (Notification × Nat) → Bool
  | _, [] => true
  | s, (n, rid) :: rest =>
    ((rid == 0) || (s.notifications rid).isNone) && freshSeq (s.add n rid).2 rest

lemma freshSeq_not_replace {s : Store} {rid : Nat}
    (h : ((rid == 0) || (s.notifications rid).isNone) = true) :
    ¬ (0 < rid ∧ (s.notifications rid).isSome) := by
  rintro ⟨hpos, hsome⟩
  rcases Bool.or_eq_true_iff.1 h with h0 | hn
  · have : rid = 0 := by simpa using h0
    omega
  · rw [Option.isNone_iff_eq_none.1 hn] at hsome
    simp at hsome

lemma runAdds_spec (reqs : List (Notification × Nat)) :
    ∀ s : Store, StoreIdInv s → freshSeq s reqs = true →
    (runAdds s reqs).1 = List.range' s.next_id reqs.length ∧
    StoreIdInv (runAdds s reqs).2 ∧
    (runAdds s reqs).2.next_id = s.next_id + reqs.length := by
  induction reqs with
  | nil =>
    intro s hinv _
    exact ⟨rfl, hinv, rfl⟩
  | cons hd tl ih =>
    intro s hinv hf
    obtain ⟨n, rid⟩ := hd
    have hf2 := Bool.and_eq_true_iff.1 hf
    have hnr := freshSeq_not_replace hf2.1
    have hfst := add_fresh_fst s n rid hnr
    have hnext := add_fresh_next_id s n rid hnr
    have hinv2 := add_preserves_idinv s n rid hinv
    obtain ⟨hids, hinv3, hlen⟩ := ih (s.add n rid).2 hinv2 hf2.2
    refine ⟨?_, ?_, ?_⟩
    · show (s.add n rid).1 :: (runAdds (s.add n rid).2 tl).1 = _
      rw [hfst, hids, hnext, List.length_cons, List.range'_succ]
    · exact hinv3
    · show (runAdds (s.add n rid).2 tl).2.next_id = _
      rw [hlen, hnext, List.length_cons]
      omega

/-- Claim C1: starting from a fresh Store, a sequence of add calls whose
replaces_id is zero or not an active id returns exactly the consecutive ids
starting at one: strictly increasing, never zero, never reused while
active (all distinct, nothing closed in between), and id zero never appears
as a key of the notifications map. -/
theorem store_add_ids_strictly_increasing (cfg : Config) (reqs : List (Notification × Nat))
    (h : freshSeq (Store.new cfg) reqs = true) :
    (runAdds (Store.new cfg) reqs).1 = List.range' 1 reqs.length ∧
    (runAdds (Store.new cfg) reqs).1.Pairwise (· < ·) ∧
    0 ∉ (runAdds (Store.new cfg) reqs).1 ∧
    (runAdds (Store.new cfg) reqs).2.notifications 0 = none := by
  obtain ⟨hids, hinv, _⟩ :=
    runAdds_spec reqs (Store.new cfg) (storeIdInv_new cfg) h
  have hids1 : (runAdds (Store.new cfg) reqs).1 = List.range' 1 reqs.length := hids
  refine ⟨hids1, ?_, ?_, ?_⟩
  · rw [hids1]; exact List.pairwise_lt_range' 1 reqs.length
  · rw [hids1]
    intro hmem
    have := (List.mem_range'_1).1 hmem
    omega
  · cases h0 : (runAdds (Store.new cfg) reqs).2.notifications 0 with
    | none => rfl
    | some m =>
      have := hinv.2 0 (by rw [h0]; rfl)
      omega

/-- A concrete configuration used by the concrete witnesses below. -/
def cfgEx : Config := { log_enabled := true, log_path := "/tmp/xnotid.jsonl" }

/-- A concrete notification value with a chosen group, used by the concrete
witnesses below. -/
def notiEx (g : Option String) : Notification :=
  { id := 0, app_name := "app", summary := "s", body := "b", app_icon := "",
    actions := [], urgency := Urgency.Normal, timeout := -1, group := g,
    acknowledge_to_dismiss := false, image := ImageData.None,
    desktop_entry := none, transient := false, progress := none,
    css_class := none, card := none }

/-- Witness for C1 at a concrete two-request sequence. -/
theorem store_add_ids_strictly_increasing_witness :
    freshSeq (Store.new cfgEx) [(notiEx none, 0), (notiEx none, 0)] = true ∧
    (runAdds (Store.new cfgEx) [(notiEx none, 0), (notiEx none, 0)]).1 = List.range' 1 2 :=
  ⟨by decide,
   (store_add_ids_strictly_increasing cfgEx [(notiEx none, 0), (notiEx none, 0)]
     (by decide)).1⟩

/-! Replace semantics (claim C2). -/

/-- Apply a sequence of replacing adds, all aimed at the same id. -/
def replaceAll (s : Store) (X : Nat) (ns : List Notification) : Store :=
  ns.foldl (fun st m => (st.add m X).2) s

lemma add_replace_active (s : Store) (n : Notification) (rid : Nat)
    (h : 0 < rid ∧ (s.notifications rid).isSome) :
    ((s.add n rid).2.notifications rid).isSome := by
  rw [add_replace_notifications s n rid h]
  simp

lemma add_replace_count (s : Store) (n : Notification) (rid : Nat)
    (h : 0 < rid ∧ (s.notifications rid).isSome)
    (hc : s.replaced_ids.count rid ≤ 1) :
    (s.add n rid).2.replaced_ids.count rid = 1 := by
  rw [add_replace_replaced_ids s n rid h]
  by_cases hm : rid ∈ s.replaced_ids
  · rw [if_pos hm]
    have := List.count_pos_iff.2 hm
    omega
  · rw [if_neg hm]
    rw [List.count_append]
    rw [List.count_eq_zero.2 hm]
    simp

lemma replaceAll_inv (X : Nat) (hX : 0 < X) (ns : List Notification) :
    ∀ st : Store, (st.notifications X).isSome → st.replaced_ids.count X = 1 →
    (replaceAll st X ns).order = st.order ∧
    ((replaceAll st X ns).notifications X).isSome ∧
    (replaceAll st X ns).replaced_ids.count X = 1 := by
  induction ns with
  | nil =>
    intro st hact hc
    exact ⟨rfl, hact, hc⟩
  | cons m tl ih =>
    intro st hact hc
    have h : 0 < X ∧ (st.notifications X).isSome := ⟨hX, hact⟩
    have hact2 := add_replace_active st m X h
    have hc2 := add_replace_count st m X h (le_of_eq hc)
    obtain ⟨ho, ha, hcnt⟩ := ih (st.add m X).2 hact2 hc2
    refine ⟨?_, ha, hcnt⟩
    show (replaceAll (st.add m X).2 X tl).order = st.order
    rw [ho, add_replace_order st m X h]

/-- Claim C2: a replacing add of an active id X returns X, leaves order
unchanged in length and in the position of every id, and after any number
of further replaces of X before a drain, X appears in the drained
take_replaced_ids result exactly once (the hypothesis on count holds in
every reachable store, where replaced_ids is duplicate-free). -/
theorem store_replace_semantics (s : Store) (X : Nat) (n : Notification)
    (ns : List Notification) (hX : 0 < X)
    (hact : (s.notifications X).isSome = true)
    (hc : s.replaced_ids.count X ≤ 1) :
    (s.add n X).1 = X ∧
    (s.add n X).2.order = s.order ∧
    (replaceAll (s.add n X).2 X ns).order = s.order ∧
    (replaceAll (s.add n X).2 X ns).take_replaced_ids.1.count X = 1 := by
  have h : 0 < X ∧ (s.notifications X).isSome := ⟨hX, hact⟩
  obtain ⟨ho, _, hcnt⟩ :=
    replaceAll_inv X hX ns (s.add n X).2 (add_replace_active s n X h)
      (add_replace_count s n X h hc)
  refine ⟨add_replace_fst s n X h, add_replace_order s n X h, ?_, ?_⟩
  · rw [ho, add_replace_order s n X h]
  · exact hcnt

/-- Witness for C2: one add then two replacing adds of the same id. -/
theorem store_replace_semantics_witness :
    0 < 1 ∧
    (((Store.new cfgEx).add (notiEx none) 0).2.notifications 1).isSome = true ∧
    ((Store.new cfgEx).add (notiEx none) 0).2.replaced_ids.count 1 ≤ 1 ∧
    ((((Store.new cfgEx).add (notiEx none) 0).2.add (notiEx none) 1).1 = 1 ∧
     (((Store.new cfgEx).add (notiEx none) 0).2.add (notiEx none) 1).2.order =
       ((Store.new cfgEx).add (notiEx none) 0).2.order ∧
     (replaceAll ((((Store.new cfgEx).add (notiEx none) 0).2.add (notiEx none) 1).2) 1
        [notiEx none]).order = ((Store.new cfgEx).add (notiEx none) 0).2.order ∧
     (replaceAll ((((Store.new cfgEx).add (notiEx none) 0).2.add (notiEx none) 1).2) 1
        [notiEx none]).take_replaced_ids.1.count 1 = 1) :=
  ⟨by decide, by decide, by decide,
   store_replace_semantics ((Store.new cfgEx).add (notiEx none) 0).2 1 (notiEx none)
     [notiEx none] (by decide) (by decide) (by decide)⟩

/-! Idempotent close (claim C5). -/

/-- Claim C5: closing an active id returns the removed notification and
appends exactly one audit event (when logging is enabled); an immediately
following close of the same id returns nothing, appends no event and leaves
the whole store, in particular notifications, order and groups, unchanged. -/
theorem close_idempotent (s : Store) (id : Nat) (n : Notification)
    (reason : CloseReason) (h : s.notifications id = some n)
    (hlog : s.config.log_enabled = true) :
    (s.close id reason).1 = some n ∧
    (s.close id reason).2.log = s.log ++ [(reasonEvent reason, n.id)] ∧
    ((s.close id reason).2.close id reason).1 = none ∧
    ((s.close id reason).2.close id reason).2 = (s.close id reason).2 := by
  have hnone : (s.close id reason).2.notifications id = none := by
    rw [close_some_notifications s id reason n h]
    simp
  refine ⟨close_some_fst s id reason n h, ?_, ?_, ?_⟩
  · show (s.close id reason).2.log = _
    unfold Store.close
    rw [h]
    simp only []
    rw [log_event_log_of_enabled _ n (reasonEvent reason)
      (by simp [removeGroupIndex_config]; exact hlog)]
    simp
  · rw [(close_none_eq _ id reason hnone :
      (s.close id reason).2.close id reason = (none, (s.close id reason).2))]
  · rw [(close_none_eq _ id reason hnone :
      (s.close id reason).2.close id reason = (none, (s.close id reason).2))]

/-- Witness for C5 at a concrete one-notification store. -/
theorem close_idempotent_witness :
    (((Store.new cfgEx).add (notiEx none) 0).2.close 1 CloseReason.Dismissed).1 =
      some { notiEx none with id := 1 } ∧
    ((((Store.new cfgEx).add (notiEx none) 0).2.close 1 CloseReason.Dismissed).2.close 1
      CloseReason.Dismissed).1 = none :=
  ⟨(close_idempotent ((Store.new cfgEx).add (notiEx none) 0).2 1
      { notiEx none with id := 1 } CloseReason.Dismissed (by decide) (by decide)).1,
   (close_idempotent ((Store.new cfgEx).add (notiEx none) 0).2 1
      { notiEx none with id := 1 } CloseReason.Dismissed (by decide) (by decide)).2.2.1⟩

/-! DND filtering (claims C6, C10). -/

lemma visible_popups_of_dnd_true (s : Store) (h : s.dnd = true) :
    s.visible_popups =
      (s.order.filterMap fun id => s.notifications id).filter
        (fun n => n.urgency == Urgency.Critical) := by
  unfold Store.visible_popups
  rw [h]
  congr 1
  funext n
  by_cases hc : n.urgency = Urgency.Critical
  · simp [hc]
  · simp [hc]

lemma visible_popups_of_dnd_false (s : Store) (h : s.dnd = false) :
    s.visible_popups = s.order.filterMap fun id => s.notifications id := by
  unfold Store.visible_popups
  rw [h]
  simp

/-- Claim C6: with dnd on, visible_popups is exactly the Critical subset of
order, in order sequence; with dnd off it is all of order (resolved through
the notifications map); Critical notifications are never suppressed. -/
theorem visible_popups_dnd_filter (s : Store) :
    (s.dnd = true → s.visible_popups =
      (s.order.filterMap fun id => s.notifications id).filter
        (fun n => n.urgency == Urgency.Critical)) ∧
    (s.dnd = false → s.visible_popups = s.order.filterMap fun id => s.notifications id) :=
  ⟨visible_popups_of_dnd_true s, visible_popups_of_dnd_false s⟩

/-- A concrete critical notification for the DND witnesses. -/
def notiCrit : Notification := { notiEx none with urgency := Urgency.Critical }

/-- A concrete store with one normal and one critical notification and dnd
switched on. -/
def storeDnd : Store :=
  { ((((Store.new cfgEx).add (notiEx none) 0).2).add notiCrit 0).2 with dnd := true }

/-- Witness for C6: the dnd-on store and its dnd-off variant. -/
theorem visible_popups_dnd_filter_witness :
    storeDnd.visible_popups =
      (storeDnd.order.filterMap fun id => storeDnd.notifications id).filter
        (fun n => n.urgency == Urgency.Critical) ∧
    { storeDnd with dnd := false }.visible_popups =
      { storeDnd with dnd := false }.order.filterMap
        fun id => { storeDnd with dnd := false }.notifications id :=
  ⟨(visible_popups_dnd_filter storeDnd).1 rfl,
   (visible_popups_dnd_filter { storeDnd with dnd := false }).2 rfl⟩

/-- Claim C10 (implicit): visible_popups never filters on the transient
flag: with dnd off, every notification of order, transient or not, is in
visible_popups; only all_notifications drops transient ones. -/
theorem visible_popups_ignores_transient (s : Store) (h : s.dnd = false)
    (id : Nat) (n : Notification) (hid : id ∈ s.order)
    (hn : s.notifications id = some n) :
    n ∈ s.visible_popups ∧
    (n.transient = true → n ∉ s.all_notifications) := by
  constructor
  · rw [visible_popups_of_dnd_false s h]
    exact List.mem_filterMap.2 ⟨id, hid, hn⟩
  · intro ht hmem
    unfold Store.all_notifications at hmem
    have := (List.mem_filter.1 hmem).2
    rw [ht] at this
    simp at this

/-- A concrete transient notification. -/
def notiTrans : Notification := { notiEx none with transient := true }

/-- A concrete store holding only the transient notification. -/
def storeTrans : Store := ((Store.new cfgEx).add notiTrans 0).2

/-- Witness for C10: the transient notification is in visible_popups and
not in all_notifications. -/
theorem visible_popups_ignores_transient_witness :
    { notiTrans with id := 1 } ∈ storeTrans.visible_popups ∧
    ({ notiTrans with id := 1 }.transient = true →
      { notiTrans with id := 1 } ∉ storeTrans.all_notifications) :=
  visible_popups_ignores_transient storeTrans rfl 1 { notiTrans with id := 1 }
    (by decide) (by decide)

/-! Pending replaced ids survive a close (claim C9). -/

/-- Claim C9 (implicit): close does not purge replaced_ids, so a drain can
return an id that is no longer active: add id one, replace it, close it;
the next take_replaced_ids still contains one while one is absent from the
notifications map. -/
theorem replaced_ids_survive_close :
    1 ∈ (((((Store.new cfgEx).add (notiEx none) 0).2.add (notiEx none) 1).2.close 1
          CloseReason.Closed).2.take_replaced_ids).1 ∧
    ((((Store.new cfgEx).add (notiEx none) 0).2.add (notiEx none) 1).2.close 1
          CloseReason.Closed).2.notifications 1 = none := by
  decide

/-! Group-index integrity (claim C3). -/

/-- One store mutation: an add (with its replaces_id) or a close. -/
inductive StoreOp where
  | add (n : Notification) (rid : Nat)
  | close (id : Nat) (reason : CloseReason)

/-- Apply one operation to the store. -/
def applyOp (s : Store) : StoreOp → Store
  | .add n rid => (s.add n rid).2
  | .close id reason => (s.close id reason).2

/-- Apply a sequence of operations. -/
def runOps (s : Store) (ops : List StoreOp) : Store := ops.foldl applyOp s

/-- Every add of the sequence that replaces an active notification carries
the same group key as the notification it replaces (evaluated against the
evolving store). -/
def groupSafeFrom : Store → List StoreOp → Bool
  | _, [] => true
  | s, op :: rest =>
    (match op with
     | .add n rid =>
       match s.notifications rid with
       | some old => old.group == n.group
       | none => true
     | .close _ _ => true) && groupSafeFrom (applyOp s op) rest

lemma next_id_not_active (s : Store) (hinv : StoreIdInv s) :
    s.notifications s.next_id = none := by
  cases h : s.notifications s.next_id with
  | none => rfl
  | some m =>
    have := hinv.2 s.next_id (by rw [h]; rfl)
    omega

lemma active_ne_next_id (s : Store) (hinv : StoreIdInv s) {id : Nat} {m : Notification}
    (h : s.notifications id = some m) : id ≠ s.next_id := by
  intro he
  rw [he, next_id_not_active s hinv] at h
  simp at h

lemma add_preserves_groupinv (s : Store) (n : Notification) (rid : Nat)
    (hinv : StoreIdInv s) (hg : GroupInv s)
    (hsafe : ∀ old, s.notifications rid = some old → old.group = n.group) :
    GroupInv (s.add n rid).2 := by
  by_cases h : 0 < rid ∧ (s.notifications rid).isSome
  · obtain ⟨old, hold⟩ := Option.isSome_iff_exists.1 h.2
    have hsg := hsafe old hold
    have hN := add_replace_notifications s n rid h
    have hG := add_replace_groups s n rid h
    constructor
    · intro g ids hgs id0 hmem
      rw [hG] at hgs
      obtain ⟨m, hm, hmg⟩ := hg.1 g ids hgs id0 hmem
      rw [hN]
      by_cases he : id0 = rid
      · subst he
        refine ⟨{ n with id := id0 }, by simp, ?_⟩
        show n.group = some g
        rw [hold] at hm
        have hmo : old = m := Option.some.inj hm
        rw [← hsg, hmo]
        exact hmg
      · refine ⟨m, ?_, hmg⟩
        simp only [if_neg he]
        exact hm
    · intro id0 m g hm hmg
      rw [hN] at hm
      rw [hG]
      by_cases he : id0 = rid
      · subst he
        simp only [if_pos rfl] at hm
        have hmn : { n with id := id0 } = m := Option.some.inj hm
        have hng : old.group = some g := by
          rw [hsg]
          show ({ n with id := id0 } : Notification).group = some g
          rw [hmn]
          exact hmg
        exact hg.2 id0 old g hold hng
      · simp only [if_neg he] at hm
        exact hg.2 id0 m g hm hmg
  · have hN := add_fresh_notifications s n rid h
    have hG := add_fresh_groups s n rid h
    constructor
    · intro g ids hgs id0 hmem
      rw [hG] at hgs
      rw [hN]
      cases hng : n.group with
      | none =>
        simp only [hng] at hgs
        obtain ⟨m, hm, hmg⟩ := hg.1 g ids hgs id0 hmem
        have hne : id0 ≠ s.next_id := active_ne_next_id s hinv hm
        refine ⟨m, ?_, hmg⟩
        simp only [if_neg hne]
        exact hm
      | some g2 =>
        simp only [hng] at hgs
        by_cases hgg : g = g2
        · subst hgg
          simp only [if_pos rfl] at hgs
          have hids : ids = ((s.groups g).getD []) ++ [s.next_id] :=
            (Option.some.inj hgs).symm
          rw [hids] at hmem
          rcases List.mem_append.1 hmem with hin | hsingle
          · cases hsgg : s.groups g with
            | none => rw [hsgg] at hin; simp at hin
            | some l =>
              rw [hsgg] at hin
              simp only [Option.getD_some] at hin
              obtain ⟨m, hm, hmg⟩ := hg.1 g l hsgg id0 hin
              have hne : id0 ≠ s.next_id := active_ne_next_id s hinv hm
              refine ⟨m, ?_, hmg⟩
              simp only [if_neg hne]
              exact hm
          · have he : id0 = s.next_id := by simpa using hsingle
            refine ⟨{ n with id := s.next_id, group := some g }, ?_, rfl⟩
            rw [he]
            simp
        · simp only [if_neg hgg] at hgs
          obtain ⟨m, hm, hmg⟩ := hg.1 g ids hgs id0 hmem
          have hne : id0 ≠ s.next_id := active_ne_next_id s hinv hm
          refine ⟨m, ?_, hmg⟩
          simp only [if_neg hne]
          exact hm
    · intro id0 m g hm hmg
      rw [hN] at hm
      rw [hG]
      by_cases he : id0 = s.next_id
      · have hm2 : some ({ n with id := s.next_id } : Notification) = some m := by
          rw [← hm, he]
          simp
        have hmn := Option.some.inj hm2
        have hng : n.group = some g := by
          have hx : ({ n with id := s.next_id } : Notification).group = some g := by
            rw [hmn]
            exact hmg
          exact hx
        simp only [hng]
        refine ⟨((s.groups g).getD []) ++ [s.next_id], ?_, ?_⟩
        · simp
        · rw [he]
          exact List.mem_append_right _ (by simp)
      · simp only [if_neg he] at hm
        obtain ⟨ids, hids, hmem⟩ := hg.2 id0 m g hm hmg
        cases hng : n.group with
        | none =>
          simp only [hng]
          exact ⟨ids, hids, hmem⟩
        | some g2 =>
          simp only [hng]
          by_cases hgg : g = g2
          · subst hgg
            refine ⟨((s.groups g).getD []) ++ [s.next_id], by simp, ?_⟩
            rw [hids]
            simp only [Option.getD_some]
            exact List.mem_append_left _ hmem
          · refine ⟨ids, ?_, hmem⟩
            simp only [if_neg hgg]
            exact hids

lemma close_preserves_groupinv (s : Store) (id : Nat) (r : CloseReason)
    (hg : GroupInv s) : GroupInv (s.close id r).2 := by
  cases h : s.notifications id with
  | none =>
    rw [close_none_eq s id r h]
    exact hg
  | some noti =>
    have hN := close_some_notifications s id r noti h
    have hG := close_some_groups s id r noti h
    constructor
    · intro g ids hgs id0 hmem
      rw [hG] at hgs
      rw [hN]
      cases hng : noti.group with
      | none =>
        simp only [hng] at hgs
        obtain ⟨m, hm, hmg⟩ := hg.1 g ids hgs id0 hmem
        have hne : id0 ≠ id := by
          intro he
          rw [he, h] at hm
          have : noti = m := Option.some.inj hm
          rw [← this] at hmg
          rw [hng] at hmg
          simp at hmg
        refine ⟨m, ?_, hmg⟩
        simp only [if_neg hne]
        exact hm
      | some g0 =>
        simp only [hng] at hgs
        obtain ⟨ids0, hids0, _⟩ := hg.2 id noti g0 h hng
        rw [hids0] at hgs
        by_cases hgg : g = g0
        · subst hgg
          simp only [if_pos rfl] at hgs
          by_cases hemp : (ids0.filter (fun x => x ≠ id)).isEmpty
          · rw [if_pos hemp] at hgs
            simp at hgs
          · rw [if_neg hemp] at hgs
            have hids : ids = ids0.filter (fun x => x ≠ id) :=
              (Option.some.inj hgs).symm
            rw [hids] at hmem
            have hm0 := List.mem_filter.1 hmem
            have hne : id0 ≠ id := by simpa using hm0.2
            obtain ⟨m, hm, hmg⟩ := hg.1 g ids0 hids0 id0 hm0.1
            refine ⟨m, ?_, hmg⟩
            simp only [if_neg hne]
            exact hm
        · simp only [if_neg hgg] at hgs
          obtain ⟨m, hm, hmg⟩ := hg.1 g ids hgs id0 hmem
          have hne : id0 ≠ id := by
            intro he
            rw [he, h] at hm
            have : noti = m := Option.some.inj hm
            rw [← this] at hmg
            rw [hng] at hmg
            exact hgg (Option.some.inj hmg.symm)
          refine ⟨m, ?_, hmg⟩
          simp only [if_neg hne]
          exact hm
    · intro id0 m g hm hmg
      rw [hN] at hm
      rw [hG]
      have hne : id0 ≠ id := by
        intro he
        rw [he] at hm
        simp at hm
      simp only [if_neg hne] at hm
      obtain ⟨ids, hids, hmem⟩ := hg.2 id0 m g hm hmg
      cases hng : noti.group with
      | none =>
        simp only [hng]
        exact ⟨ids, hids, hmem⟩
      | some g0 =>
        simp only [hng]
        obtain ⟨ids0, hids0, _⟩ := hg.2 id noti g0 h hng
        rw [hids0]
        by_cases hgg : g = g0
        · subst hgg
          have hideq : ids = ids0 := by
            rw [hids0] at hids
            exact (Option.some.inj hids).symm
          subst hideq
          have hmem2 : id0 ∈ ids.filter (fun x => x ≠ id) :=
            List.mem_filter.2 ⟨hmem, by simpa using hne⟩
          have hemp : (ids.filter (fun x => x ≠ id)).isEmpty = false := by
            cases hfe : (ids.filter (fun x => x ≠ id)) with
            | nil => rw [hfe] at hmem2; simp at hmem2
            | cons a l => rfl
          refine ⟨ids.filter (fun x => x ≠ id), ?_, hmem2⟩
          simp only [if_pos rfl, hemp]
          rfl
        · refine ⟨ids, ?_, hmem⟩
          simp only [if_neg hgg]
          exact hids

lemma runOps_preserves_inv (ops : List StoreOp) :
    ∀ s : Store, StoreIdInv s → GroupInv s → groupSafeFrom s ops = true →
    StoreIdInv (runOps s ops) ∧ GroupInv (runOps s ops) := by
  induction ops with
  | nil =>
    intro s h1 h2 _
    exact ⟨h1, h2⟩
  | cons op rest ih =>
    intro s h1 h2 hsafe
    have hsafe2 := Bool.and_eq_true_iff.1 hsafe
    have hstep : StoreIdInv (applyOp s op) ∧ GroupInv (applyOp s op) := by
      cases op with
      | add n rid =>
        refine ⟨add_preserves_idinv s n rid h1, ?_⟩
        apply add_preserves_groupinv s n rid h1 h2
        intro old hold
        have hb := hsafe2.1
        simp only [hold, beq_iff_eq] at hb
        exact hb
      | close cid reason =>
        exact ⟨close_preserves_idinv s cid reason h1,
               close_preserves_groupinv s cid reason h2⟩
    exact ih (applyOp s op) hstep.1 hstep.2 hsafe2.2

/-- Counterexample to C3 as stated: replacing an active notification with
one carrying a different group key leaves a stale id in the old group
index, so group integrity fails after a two-add sequence. -/
theorem group_integrity_counterexample :
    ¬ GroupInv (runOps (Store.new cfgEx)
      [StoreOp.add (notiEx (some "a")) 0, StoreOp.add (notiEx (some "b")) 1]) := by
  intro h
  obtain ⟨n, hn, hng⟩ := h.1 "a" [1] (by decide) 1 (by decide)
  have hn2 : (runOps (Store.new cfgEx)
      [StoreOp.add (notiEx (some "a")) 0, StoreOp.add (notiEx (some "b")) 1]).notifications 1 =
      some { notiEx (some "b") with id := 1 } := by decide
  rw [hn] at hn2
  have hne : n = { notiEx (some "b") with id := 1 } := Option.some.inj hn2
  rw [hne] at hng
  exact absurd hng (by decide)

/-- Claim C3, amended: group-index integrity holds after every sequence of
add and close operations in which each replacing add preserves the group
key of the notification it replaces (the source does not re-index groups on
replace, so a group-changing replace genuinely breaks the invariant; see
the counterexample). -/
theorem group_integrity_group_preserving (cfg : Config) (ops : List StoreOp)
    (h : groupSafeFrom (Store.new cfg) ops = true) :
    GroupInv (runOps (Store.new cfg) ops) :=
  (runOps_preserves_inv ops (Store.new cfg) (storeIdInv_new cfg)
    (groupInv_new cfg) h).2

/-- Witness for the amended C3: add into a group, replace with the same
group, close a member. -/
theorem group_integrity_group_preserving_witness :
    groupSafeFrom (Store.new cfgEx)
      [StoreOp.add (notiEx (some "a")) 0, StoreOp.add (notiEx (some "a")) 1,
       StoreOp.close 1 CloseReason.Dismissed] = true ∧
    GroupInv (runOps (Store.new cfgEx)
      [StoreOp.add (notiEx (some "a")) 0, StoreOp.add (notiEx (some "a")) 1,
       StoreOp.close 1 CloseReason.Dismissed]) :=
  ⟨by decide,
   group_integrity_group_preserving cfgEx
     [StoreOp.add (notiEx (some "a")) 0, StoreOp.add (notiEx (some "a")) 1,
      StoreOp.close 1 CloseReason.Dismissed] (by decide)⟩

/-! Decoder totality and fail-soft defaults (claim C4). -/

/-- The value under a key, when present, is not of the stated variant
shape (so the typed getter for that key must fail soft). -/
def hintIllTyped (hints : List (String × DBusValue)) (key : String)
    (shape : DBusValue → Bool) : Bool :=
  match hints.lookup key with
  | some v => !(shape v)
  | none => true

lemma get_hint_u8_eq_none (hints : List (String × DBusValue)) (key : String)
    (h : hintIllTyped hints key DBusValue.isU8 = true) :
    get_hint_u8 hints key = none := by
  unfold hintIllTyped at h
  unfold get_hint_u8
  cases hl : hints.lookup key with
  | none => rfl
  | some v =>
    rw [hl] at h
    cases v <;> simp_all [DBusValue.isU8]

lemma get_hint_string_eq_none (hints : List (String × DBusValue)) (key : String)
    (h : hintIllTyped hints key DBusValue.isStr = true) :
    get_hint_string hints key = none := by
  unfold hintIllTyped at h
  unfold get_hint_string
  cases hl : hints.lookup key with
  | none => rfl
  | some v =>
    rw [hl] at h
    cases v <;> simp_all [DBusValue.isStr]

lemma get_hint_bool_eq_none (hints : List (String × DBusValue)) (key : String)
    (h : hintIllTyped hints key DBusValue.isBool = true) :
    get_hint_bool hints key = none := by
  unfold hintIllTyped at h
  unfold get_hint_bool
  cases hl : hints.lookup key with
  | none => rfl
  | some v =>
    rw [hl] at h
    cases v <;> simp_all [DBusValue.isBool]

lemma get_hint_i32_eq_none (hints : List (String × DBusValue)) (key : String)
    (h : hintIllTyped hints key DBusValue.isI32orU32 = true) :
    get_hint_i32 hints key = none := by
  unfold hintIllTyped at h
  unfold get_hint_i32
  cases hl : hints.lookup key with
  | none => rfl
  | some v =>
    rw [hl] at h
    cases v <;> simp_all [DBusValue.isI32orU32]

lemma parse_raw_image_eq_none (hints : List (String × DBusValue)) (key : String)
    (h : hintIllTyped hints key DBusValue.isImage = true) :
    parse_raw_image hints key = none := by
  unfold hintIllTyped at h
  unfold parse_raw_image
  cases hl : hints.lookup key with
  | none => rfl
  | some v =>
    rw [hl] at h
    cases v <;> simp_all [DBusValue.isImage]

lemma add_returns_pos (s : Store) (n : Notification) (rid : Nat)
    (h : 1 ≤ s.next_id) : 0 < (s.add n rid).1 := by
  by_cases hc : 0 < rid ∧ (s.notifications rid).isSome
  · rw [add_replace_fst s n rid hc]
    exact hc.1
  · rw [add_fresh_fst s n rid hc]
    omega

/-- Claim C4: notification construction is total and fail-soft.  Whenever
every consumed hint key is absent or holds a value of the wrong variant
type, every decoded field lands on its type-appropriate default (urgency
Normal, group none, acknowledge false apart from the card override,
desktop_entry none, transient false, progress none, css_class none, and
with an empty app_icon no image), and Notify still returns an assigned,
nonzero id for the call rather than an error. -/
theorem decoder_fail_soft_defaults
    (app_name app_icon summary body : String) (actions : List String)
    (hints : List (String × DBusValue)) (timeout : Int)
    (hu : hintIllTyped hints "urgency" DBusValue.isU8 = true)
    (hgr : hintIllTyped hints "x-group" DBusValue.isStr = true)
    (hack : hintIllTyped hints "x-acknowledge" DBusValue.isBool = true)
    (hde : hintIllTyped hints "desktop-entry" DBusValue.isStr = true)
    (htr : hintIllTyped hints "transient" DBusValue.isBool = true)
    (hval : hintIllTyped hints "value" DBusValue.isI32orU32 = true)
    (hcss : hintIllTyped hints "x-css-class" DBusValue.isStr = true)
    (hi1 : hintIllTyped hints "image-data" DBusValue.isImage = true)
    (hi2 : hintIllTyped hints "image_data" DBusValue.isImage = true)
    (hi3 : hintIllTyped hints "icon_data" DBusValue.isImage = true)
    (hp1 : hintIllTyped hints "image-path" DBusValue.isStr = true)
    (hp2 : hintIllTyped hints "image_path" DBusValue.isStr = true) :
    (Notification.new 0 app_name app_icon summary body actions hints timeout).urgency =
      Urgency.Normal ∧
    (Notification.new 0 app_name app_icon summary body actions hints timeout).group = none ∧
    (Notification.new 0 app_name app_icon summary body actions hints
      timeout).acknowledge_to_dismiss = (parse_card_body body).isSome ∧
    (Notification.new 0 app_name app_icon summary body actions hints
      timeout).desktop_entry = none ∧
    (Notification.new 0 app_name app_icon summary body actions hints timeout).transient =
      false ∧
    (Notification.new 0 app_name app_icon summary body actions hints timeout).progress =
      none ∧
    (Notification.new 0 app_name app_icon summary body actions hints timeout).css_class =
      none ∧
    (app_icon = "" →
      (Notification.new 0 app_name app_icon summary body actions hints timeout).image =
        ImageData.None) ∧
    (∀ (s : Store) (replaces_id : Nat), 1 ≤ s.next_id →
      0 < (notify s app_name replaces_id app_icon summary body actions hints timeout).1) := by
  refine ⟨?_, ?_, ?_, ?_, ?_, ?_, ?_, ?_, ?_⟩
  · show ((get_hint_u8 hints "urgency").map Urgency.ofU8).getD Urgency.Normal = _
    rw [get_hint_u8_eq_none hints "urgency" hu]
    rfl
  · exact get_hint_string_eq_none hints "x-group" hgr
  · show (((get_hint_bool hints "x-acknowledge").getD false) ||
      (parse_card_body body).isSome) = (parse_card_body body).isSome
    rw [get_hint_bool_eq_none hints "x-acknowledge" hack]
    simp
  · exact get_hint_string_eq_none hints "desktop-entry" hde
  · show (get_hint_bool hints "transient").getD false = false
    rw [get_hint_bool_eq_none hints "transient" htr]
    rfl
  · exact get_hint_i32_eq_none hints "value" hval
  · exact get_hint_string_eq_none hints "x-css-class" hcss
  · intro happ
    show parse_image hints app_icon = ImageData.None
    unfold parse_image
    rw [parse_raw_image_eq_none hints "image-data" hi1,
        parse_raw_image_eq_none hints "image_data" hi2,
        parse_raw_image_eq_none hints "icon_data" hi3,
        get_hint_string_eq_none hints "image-path" hp1,
        get_hint_string_eq_none hints "image_path" hp2,
        happ]
    simp
  · intro s replaces_id hnext
    exact add_returns_pos s _ replaces_id hnext

/-- A concrete hint map in which every consumed key that is present holds a
wrongly typed value. -/
def hintsIllW : List (String × DBusValue) :=
  [("urgency", DBusValue.str "high"), ("x-group", DBusValue.u8 1),
   ("x-acknowledge", DBusValue.str "yes"), ("desktop-entry", DBusValue.other),
   ("transient", DBusValue.i32 1), ("value", DBusValue.str "50"),
   ("x-css-class", DBusValue.bool true), ("image-data", DBusValue.str "img"),
   ("image-path", DBusValue.u8 0)]

/-- Witness for C4 at the concrete ill-typed hint map. -/
theorem decoder_fail_soft_defaults_witness :
    (Notification.new 0 "app" "" "s" "hello" [] hintsIllW (-1)).urgency = Urgency.Normal ∧
    (Notification.new 0 "app" "" "s" "hello" [] hintsIllW (-1)).transient = false ∧
    0 < (notify (Store.new cfgEx) "app" 0 "" "s" "hello" [] hintsIllW (-1)).1 :=
  ⟨(decoder_fail_soft_defaults "app" "" "s" "hello" [] hintsIllW (-1)
      (by decide) (by decide) (by decide) (by decide) (by decide) (by decide)
      (by decide) (by decide) (by decide) (by decide) (by decide) (by decide)).1,
   (decoder_fail_soft_defaults "app" "" "s" "hello" [] hintsIllW (-1)
      (by decide) (by decide) (by decide) (by decide) (by decide) (by decide)
      (by decide) (by decide) (by decide) (by decide) (by decide) (by decide)).2.2.2.2.1,
   (decoder_fail_soft_defaults "app" "" "s" "hello" [] hintsIllW (-1)
      (by decide) (by decide) (by decide) (by decide) (by decide) (by decide)
      (by decide) (by decide) (by decide) (by decide) (by decide)
      (by decide)).2.2.2.2.2.2.2.2 (Store.new cfgEx) 0 (by decide)⟩

/-! Card detection (claim C7). -/

/-- Claim C7: a body deserializing as a v1 card envelope yields exactly
that card (a permission card without an explicit allow_label field gets
the label Allow), a successfully parsed card forces acknowledge_to_dismiss
regardless of the x-acknowledge hint, and any other marker value or any
JSON parse failure yields no card. -/
theorem card_detection :
    (∀ body, jsonParse body = none → parse_card_body body = none) ∧
    (∀ body j, jsonParse body = some j → deCardEnvelope j = none →
      parse_card_body body = none) ∧
    (∀ body j marker card, jsonParse body = some j →
      deCardEnvelope j = some (marker, card) → marker ≠ "v1" →
      parse_card_body body = none) ∧
    (∀ body j card, jsonParse body = some j →
      deCardEnvelope j = some ("v1", card) → parse_card_body body = some card) ∧
    (∀ q fields, jget "type" fields = some (Json.str "permission") →
      jget "question" fields = some (Json.str q) →
      jget "allow_label" fields = none →
      deNotificationCard fields = some (NotificationCard.Permission q "Allow")) ∧
    (∀ id app_name app_icon summary body actions hints timeout,
      (parse_card_body body).isSome = true →
      (Notification.new id app_name app_icon summary body actions hints
        timeout).acknowledge_to_dismiss = true) := by
  refine ⟨?_, ?_, ?_, ?_, ?_, ?_⟩
  · intro body h
    unfold parse_card_body
    rw [h]
    rfl
  · intro body j h he
    unfold parse_card_body
    rw [h]
    have hb : (some j).bind deCardEnvelope = deCardEnvelope j := rfl
    rw [hb, he]
  · intro body j marker card h he hm
    unfold parse_card_body
    rw [h]
    have hb : (some j).bind deCardEnvelope = deCardEnvelope j := rfl
    rw [hb, he]
    simp [hm]
  · intro body j card h he
    unfold parse_card_body
    rw [h]
    have hb : (some j).bind deCardEnvelope = deCardEnvelope j := rfl
    rw [hb, he]
    simp
  · intro q fields ht hq ha
    unfold deNotificationCard
    rw [ht, hq, ha]
    simp [asString]
  · intro id app_name app_icon summary body actions hints timeout h
    show (((get_hint_bool hints "x-acknowledge").getD false) ||
      (parse_card_body body).isSome) = true
    rw [h]
    simp

/-- The concrete v1 permission card body of the spec example. -/
def bodyPermissionV1 : String :=
  "\x7b\"xnotid_card\":\"v1\",\"type\":\"permission\",\"question\":\"Allow?\"\x7d"

/-- The same body with marker v2, which must yield no card. -/
def bodyPermissionV2 : String :=
  "\x7b\"xnotid_card\":\"v2\",\"type\":\"permission\",\"question\":\"Allow?\"\x7d"

/-- The parsed JSON object of the v1 body. -/
def jsonPermissionV1 : Json :=
  Json.obj [("xnotid_card", Json.str "v1"), ("type", Json.str "permission"),
            ("question", Json.str "Allow?")]

/-- The parsed JSON object of the v2 body. -/
def jsonPermissionV2 : Json :=
  Json.obj [("xnotid_card", Json.str "v2"), ("type", Json.str "permission"),
            ("question", Json.str "Allow?")]

/-- Witness for C7 at the spec's two concrete bodies. -/
theorem card_detection_witness :
    parse_card_body bodyPermissionV1 = some (NotificationCard.Permission "Allow?" "Allow") ∧
    parse_card_body bodyPermissionV2 = none :=
  ⟨card_detection.2.2.2.1 bodyPermissionV1 jsonPermissionV1
     (NotificationCard.Permission "Allow?" "Allow") rfl rfl,
   card_detection.2.2.1 bodyPermissionV2 jsonPermissionV2 "v2"
     (NotificationCard.Permission "Allow?" "Allow") rfl rfl (by decide)⟩

/-! Image resolution precedence (claim C8). -/

/-- Claim C8: the decoded image is the first match of raw pixel hints under
image-data, image_data, icon_data (in that order), then a non-empty string
under image-path then image_path classified as Path on a slash or file URI
prefix and Name otherwise, then the app_icon parameter classified the same
way, then None; in particular a payload with both a raw image-data hint
and an image-path hint resolves to the raw image. -/
theorem image_resolution_precedence (hints : List (String × DBusValue))
    (app_icon : String) :
    (∀ raw, parse_raw_image hints "image-data" = some raw →
      parse_image hints app_icon = raw) ∧
    (parse_raw_image hints "image-data" = none →
      ∀ raw, parse_raw_image hints "image_data" = some raw →
      parse_image hints app_icon = raw) ∧
    (parse_raw_image hints "image-data" = none →
      parse_raw_image hints "image_data" = none →
      ∀ raw, parse_raw_image hints "icon_data" = some raw →
      parse_image hints app_icon = raw) ∧
    (parse_raw_image hints "image-data" = none →
      parse_raw_image hints "image_data" = none →
      parse_raw_image hints "icon_data" = none →
      ∀ p, get_hint_string hints "image-path" = some p → p ≠ "" →
      parse_image hints app_icon = classifyPathName p) ∧
    (parse_raw_image hints "image-data" = none →
      parse_raw_image hints "image_data" = none →
      parse_raw_image hints "icon_data" = none →
      (∀ q, get_hint_string hints "image-path" = some q → q = "") →
      ∀ p, get_hint_string hints "image_path" = some p → p ≠ "" →
      parse_image hints app_icon = classifyPathName p) ∧
    (parse_raw_image hints "image-data" = none →
      parse_raw_image hints "image_data" = none →
      parse_raw_image hints "icon_data" = none →
      (∀ q, get_hint_string hints "image-path" = some q → q = "") →
      (∀ q, get_hint_string hints "image_path" = some q → q = "") →
      app_icon ≠ "" →
      parse_image hints app_icon = classifyPathName app_icon) ∧
    (parse_raw_image hints "image-data" = none →
      parse_raw_image hints "image_data" = none →
      parse_raw_image hints "icon_data" = none →
      (∀ q, get_hint_string hints "image-path" = some q → q = "") →
      (∀ q, get_hint_string hints "image_path" = some q → q = "") →
      app_icon = "" →
      parse_image hints app_icon = ImageData.None) ∧
    (∀ p, (strStartsWith p "/" = true ∨ strStartsWith p "file://" = true) →
      classifyPathName p = ImageData.Path p) ∧
    (∀ p, strStartsWith p "/" = false → strStartsWith p "file://" = false →
      classifyPathName p = ImageData.Name p) := by
  refine ⟨?_, ?_, ?_, ?_, ?_, ?_, ?_, ?_, ?_⟩
  · intro raw h
    unfold parse_image
    rw [h]
  · intro h1 raw h
    unfold parse_image
    rw [h1, h]
  · intro h1 h2 raw h
    unfold parse_image
    rw [h1, h2, h]
  · intro h1 h2 h3 p hp hne
    unfold parse_image
    rw [h1, h2, h3, hp]
    simp [hne]
  · intro h1 h2 h3 hq1 p hp hne
    unfold parse_image
    rw [h1, h2, h3]
    cases hg1 : get_hint_string hints "image-path" with
    | none =>
      rw [hp]
      simp [hne]
    | some q =>
      have hqe := hq1 q hg1
      subst hqe
      rw [hp]
      simp [hne]
  · intro h1 h2 h3 hq1 hq2 happ
    unfold parse_image
    rw [h1, h2, h3]
    cases hg1 : get_hint_string hints "image-path" with
    | none =>
      cases hg2 : get_hint_string hints "image_path" with
      | none => simp [happ]
      | some q =>
        have hqe := hq2 q hg2
        subst hqe
        simp [happ]
    | some q =>
      have hqe := hq1 q hg1
      subst hqe
      cases hg2 : get_hint_string hints "image_path" with
      | none => simp [happ]
      | some q2 =>
        have hqe2 := hq2 q2 hg2
        subst hqe2
        simp [happ]
  · intro h1 h2 h3 hq1 hq2 happ
    unfold parse_image
    rw [h1, h2, h3]
    cases hg1 : get_hint_string hints "image-path" with
    | none =>
      cases hg2 : get_hint_string hints "image_path" with
      | none => simp [happ]
      | some q =>
        have hqe := hq2 q hg2
        subst hqe
        simp [happ]
    | some q =>
      have hqe := hq1 q hg1
      subst hqe
      cases hg2 : get_hint_string hints "image_path" with
      | none => simp [happ]
      | some q2 =>
        have hqe2 := hq2 q2 hg2
        subst hqe2
        simp [happ]
  · intro p hp
    unfold classifyPathName
    rcases hp with hp | hp <;> simp [hp]
  · intro p hp1 hp2
    unfold classifyPathName
    simp [hp1, hp2]

/-- A concrete hint map holding both a raw image and a path hint. -/
def hintsImgW : List (String × DBusValue) :=
  [("image-data", DBusValue.image 1 1 4 true 8 4 [0]),
   ("image-path", DBusValue.str "/tmp/x.png")]

/-- Witness for C8: the raw image wins over the path hint, a bare icon
name falls back to the app_icon parameter, and nothing yields None. -/
theorem image_resolution_precedence_witness :
    parse_image hintsImgW "" = ImageData.Raw 1 1 4 true 8 4 [0] ∧
    parse_image [] "icon-name" = ImageData.Name "icon-name" ∧
    parse_image [] "" = ImageData.None :=
  ⟨(image_resolution_precedence hintsImgW "").1 (ImageData.Raw 1 1 4 true 8 4 [0]) rfl,
   ((image_resolution_precedence [] "icon-name").2.2.2.2.2.1 rfl rfl rfl
      (fun q h => by cases h) (fun q h => by cases h) (by decide)).trans
     ((image_resolution_precedence [] "icon-name").2.2.2.2.2.2.2.2 "icon-name"
        (by decide) (by decide)),
   (image_resolution_precedence [] "").2.2.2.2.2.2.1 rfl rfl rfl
     (fun q h => by cases h) (fun q h => by cases h) rfl⟩

end Xnotid
